import Mathlib

/-!  Shallow embedding of the click-analytics subsystem of the `linker`
URL-shortening service: the daily rollup aggregator
(`src/backend/src/jobs/AnalyticsAggregationJob.ts`), the historical/real-time
report merger (`src/backend/src/services/AnalyticsReportService.ts`) and the
visitor-uniqueness classifier (class `AnalyticsService` in
`src/backend/src/middleware/auth.ts`).

Modelling conventions:
* Instants are epoch milliseconds (`Int`), mirroring JavaScript
  `Date.getTime()`.
* `new Date(t).setUTCHours(0,0,0,0)` is `dayStartUTC`.
* The JavaScript local-time constructor `new Date(getFullYear(), getMonth(),
  getDate())` is modelled for a fixed-offset server timezone `tz`
  (milliseconds east of UTC): it yields `localDayStart t tz`.  (DST
  transitions are not modelled; a fixed offset suffices for the claims about
  timezone dependence.)
* MongoDB documents are Lean structures, collections are lists, and the
  aggregation stages `$match` / `$group` / `$sort` / `$limit` are
  `List.filter`, `groupVisits`, `List.insertionSort` and `List.take`.
* JavaScript `Map` objects are association lists with JS insertion-order
  semantics (`bumpKey` for the read-add-set idiom, `setKey` for a plain
  `set`).
* JavaScript string truthiness (`s || d`) is `jsOr`; an optional string used
  in a boolean position (`visitorId || ip`) goes through `jsPresent`.
* Derived display-only percentage strings (`toFixed(2)` on a float quotient
  of the integer counts) are omitted from the result records: they are a
  function of the retained integer fields and no claim mentions them.
-/

namespace Linker

def MS_PER_DAY : Int := 86400000

def MS_PER_HOUR : Int := 3600000

/-- `setUTCHours(0,0,0,0)`: UTC midnight of the day containing `t`. -/
def dayStartUTC (t : Int) : Int := t.fdiv MS_PER_DAY * MS_PER_DAY

/-- `new Date(d.getFullYear(), d.getMonth(), d.getDate())` on a server whose
fixed timezone offset is `tz` milliseconds east of UTC: midnight, local time,
of the local calendar day containing `t`.  (`new Date(y, m, d - 1)` is the
previous local midnight, i.e. this value minus `MS_PER_DAY`.) -/
def localDayStart (t tz : Int) : Int := (t + tz).fdiv MS_PER_DAY * MS_PER_DAY - tz

/-- JS `s || d` for strings (the empty string is falsy). -/
def jsOr (s d : String) : String := if s = "" then d else s

/-- JS truthiness of an optional string: `undefined`/`null` and `""` are
falsy. -/
def jsPresent : Option String → Option String
  | none => none
  | some s => if s = "" then none else some s

/-- JS `x || d` where `x` is an optional string (e.g. a Mongo group key that
may be `null`). -/
def jsOrOpt (o : Option String) (d : String) : String := (jsPresent o).getD d

/-- One raw visit event (`src/backend/src/models/Visit.ts`).  Only the fields
read by the modelled subsystem are included; `visitedAt` is epoch ms, `url` is
the ObjectId of the shortened URL, and the enrichment fields are optional
because the corresponding schema paths may be absent. -/
structure Visit where
  url : Nat
  visitedAt : Int
  referer : String := "direct"
  country : Option String := none
  deviceType : Option String := none
  deviceBrand : Option String := none
  browserName : Option String := none
  visitorId : Option String := none
  sessionId : String := ""
  isUniqueVisitor : Bool := false
  hour : Int := 0
deriving DecidableEq

structure CountryEntry where
  country : String
  visits : Nat
  uniqueVisits : Nat
deriving DecidableEq

structure DeviceEntry where
  type : String
  visits : Nat
  uniqueVisits : Nat
deriving DecidableEq

structure BrowserEntry where
  name : String
  visits : Nat
  uniqueVisits : Nat
deriving DecidableEq

structure HourEntry where
  hour : Int
  visits : Nat
  uniqueVisits : Nat
deriving DecidableEq

structure ReferrerEntry where
  domain : String
  visits : Nat
  uniqueVisits : Nat
deriving DecidableEq

/-- One rollup summary document (the `Analytics` model of
`src/backend/src/models`); `date` is the UTC midnight of the summarised day
and `url = none` is the global scope. -/
structure AnalyticsDoc where
  url : Option Nat
  period : String
  date : Int
  totalVisits : Nat
  uniqueVisits : Nat
  countries : List CountryEntry
  devices : List DeviceEntry
  browsers : List BrowserEntry
  hourlyBreakdown : List HourEntry
  referrers : List ReferrerEntry
deriving DecidableEq

/-- A shortened URL (`src/backend/src/models/Url.ts`), reduced to the fields
the reporting layer reads. -/
structure Url where
  id : Nat
  createdBy : String
  shortCode : String := ""
  title : String := ""
  originalUrl : String := ""
  createdAt : Int := 0
deriving DecidableEq

/-- The persistent state: URL table, append-only event store (`Visit`
collection) and rollup store (`Analytics` collection). -/
structure DB where
  urls : List Url
  visits : List Visit
  analytics : List AnalyticsDoc

/-- Mongo `$group` keyed by `key`, producing for each distinct key the pair
(`$sum: 1`, `$sum: {$cond: ['$isUniqueVisitor', 1, 0]}`). -/
def groupVisits {κ : Type} [DecidableEq κ] (key : Visit → κ) (l : List Visit) :
    List (κ × Nat × Nat) :=
  (l.map key).dedup.map fun k =>
    (k, (l.filter fun v => decide (key v = k)).length,
        (l.filter fun v => decide (key v = k) && v.isUniqueVisitor).length)

/-- `$sort {visits: -1}` / JS `sort((a, b) => b.visits - a.visits)` on group
triples. -/
def sortTriplesDesc {κ : Type} (l : List (κ × Nat × Nat)) : List (κ × Nat × Nat) :=
  l.insertionSort fun a b => b.2.1 ≤ a.2.1

/-- `$sort {_id: 1}` on an integer group key. -/
def sortTriplesAscKey (l : List (Int × Nat × Nat)) : List (Int × Nat × Nat) :=
  l.insertionSort fun a b => a.1 ≤ b.1

/-- JS `sort((a, b) => b.visits - a.visits)` on result entries. -/
def sortEntriesDesc {α : Type} (visits : α → Nat) (l : List α) : List α :=
  l.insertionSort fun a b => visits b ≤ visits a

/-- JS `Map` read-add-set idiom (`const e = m.get(k) || zero; m.set(k, e + x)`):
add to the entry at `k` keeping its insertion position, appending a fresh entry
when the key is absent. -/
def bumpKey {κ : Type} [DecidableEq κ] :
    List (κ × Nat × Nat) → κ → Nat → Nat → List (κ × Nat × Nat)
  | [], k, v, u => [(k, v, u)]
  | (k', v', u') :: rest, k, v, u =>
    if k' = k then (k', v' + v, u' + u) :: rest
    else (k', v', u') :: bumpKey rest k v u

/-- JS `Map.set`: overwrite the entry at `k` keeping its insertion position,
appending when the key is absent. -/
def setKey {κ : Type} [DecidableEq κ] :
    List (κ × Nat × Nat) → κ → Nat → Nat → List (κ × Nat × Nat)
  | [], k, v, u => [(k, v, u)]
  | (k', v', u') :: rest, k, v, u =>
    if k' = k then (k', v, u) :: rest
    else (k', v', u') :: setKey rest k v u

namespace AnalyticsService

/-- `AnalyticsService.generateSessionId` (auth.ts): the session key
`identifier-userAgent-hourBucket`, where `identifier` is the visitor cookie
or, when absent/empty, the client IP, and the bucket is the UTC hour of the
current instant.  `Buffer.from(...).toString('base64')` is an injective
encoding, modelled as the identity on the encoded key: equality of session ids
coincides with equality of the keys. -/
def generateSessionId (ipAddress userAgent : String) (visitorId : Option String)
    (nowMs : Int) : String :=
  let identifier := (jsPresent visitorId).getD ipAddress
  let ua := jsOr userAgent "unknown"
  let hourTimestamp := nowMs.fdiv MS_PER_HOUR
  identifier ++ "-" ++ ua ++ "-" ++ toString hourTimestamp

/-- `AnalyticsService.isUniqueVisitor` (auth.ts): true iff no stored visit to
the same URL within the trailing `timeframe` hours matches the visitor id
(preferred) or, absent one, the session fingerprint. -/
def isUniqueVisitor (sessionId : String) (urlId : Nat) (visitorId : Option String)
    (timeframe nowMs : Int) (visits : List Visit) : Bool :=
  let cutoff := nowMs - timeframe * MS_PER_HOUR
  let existingVisit := visits.find? fun v =>
    v.url == urlId && decide (cutoff ≤ v.visitedAt) &&
      (match jsPresent visitorId with
        | some vid => v.visitorId == some vid
        | none => v.sessionId == sessionId)
  existingVisit.isNone

end AnalyticsService

namespace AnalyticsAggregationJob

/-- `extractDomain`: `new URL(referer).hostname`, with the URL parser treated
as the oracle `hostname` (it is outside the subsystem); `none` is the `catch`
branch, which returns the raw referer. -/
def extractDomain (hostname : String → Option String) (referer : String) : String :=
  if referer = "" ∨ referer = "direct" then "direct"
  else
    match hostname referer with
    | some h => h
    | none => referer

/-- The `$match` condition of `aggregateForUrl`: visits inside
`[startOfDay, endOfDay]`, restricted to one URL when `urlId` is given
(`urlId = none` is the global scope). -/
def matchVisits (urlId : Option Nat) (startOfDay endOfDay : Int)
    (visits : List Visit) : List Visit :=
  visits.filter fun v =>
    (match urlId with
      | some u => v.url == u
      | none => true) &&
    decide (startOfDay ≤ v.visitedAt) && decide (v.visitedAt ≤ endOfDay)

/-- The analytics document `aggregateForUrl` computes for one (scope, day),
or `none` when the day has no matching visits (the early return at the
`!basicStats.length || basicStats[0].totalVisits === 0` check). -/
def buildAnalyticsDoc (hostname : String → Option String) (urlId : Option Nat)
    (startOfDay endOfDay : Int) (visits : List Visit) : Option AnalyticsDoc :=
  let matching := matchVisits urlId startOfDay endOfDay visits
  if matching.length = 0 then none
  else some
    { url := urlId
      period := "daily"
      date := startOfDay
      totalVisits := matching.length
      uniqueVisits := (matching.filter (·.isUniqueVisitor)).length
      countries := (sortTriplesDesc (groupVisits (·.country) matching)).map
        fun e => ⟨jsOrOpt e.1 "Unknown", e.2.1, e.2.2⟩
      devices := (sortTriplesDesc (groupVisits (·.deviceType) matching)).map
        fun e => ⟨jsOrOpt e.1 "unknown", e.2.1, e.2.2⟩
      browsers := (sortTriplesDesc (groupVisits (·.browserName) matching)).map
        fun e => ⟨jsOrOpt e.1 "Unknown", e.2.1, e.2.2⟩
      hourlyBreakdown := (sortTriplesAscKey (groupVisits (·.hour) matching)).map
        fun e => ⟨e.1, e.2.1, e.2.2⟩
      referrers := ((sortTriplesDesc (groupVisits (·.referer) matching)).take 20).map
        fun e => ⟨extractDomain hostname e.1, e.2.1, e.2.2⟩ }

/-- The upsert key of the `Analytics.findOneAndUpdate` call:
(url, period, date). -/
def sameKey (a b : AnalyticsDoc) : Bool :=
  a.url == b.url && a.period == b.period && a.date == b.date

/-- `findOneAndUpdate(key, doc, {upsert: true})`: replace the matching
document, inserting at the end when none matches (the compound unique index on
(url, period, date) guarantees at most one match). -/
def upsertAnalytics (doc : AnalyticsDoc) : List AnalyticsDoc → List AnalyticsDoc
  | [] => [doc]
  | d :: rest => if sameKey d doc then doc :: rest else d :: upsertAnalytics doc rest

/-- `aggregateForUrl`: compute the day's summary for one scope and upsert it;
no write happens when the scope has no visits on the day. -/
def aggregateForUrl (hostname : String → Option String) (urlId : Option Nat)
    (startOfDay endOfDay : Int) (visits : List Visit)
    (store : List AnalyticsDoc) : List AnalyticsDoc :=
  match buildAnalyticsDoc hostname urlId startOfDay endOfDay visits with
  | none => store
  | some doc => upsertAnalytics doc store

/-- `aggregateDay`: global summary first, then one summary per URL that has
visits on the day, sequentially as in the source loop.  `endOfDay` is
`setUTCHours(23,59,59,999)`. -/
def aggregateDay (hostname : String → Option String) (date : Int)
    (visits : List Visit) (store : List AnalyticsDoc) : List AnalyticsDoc :=
  (((matchVisits none (dayStartUTC date) (dayStartUTC date + (MS_PER_DAY - 1)) visits).map
      (·.url)).dedup).foldl
    (fun st u => aggregateForUrl hostname (some u) (dayStartUTC date)
      (dayStartUTC date + (MS_PER_DAY - 1)) visits st)
    (aggregateForUrl hostname none (dayStartUTC date)
      (dayStartUTC date + (MS_PER_DAY - 1)) visits store)

/-- `Visit.findOne().sort({visitedAt: 1})`: the earliest event timestamp. -/
def earliestVisitAt (visits : List Visit) : Option Int :=
  (visits.map (·.visitedAt)).min?

/-- The `Analytics.findOne({period: 'daily', date, url: null})` existence
check. -/
def hasGlobalDaily (store : List AnalyticsDoc) (date : Int) : Bool :=
  store.any fun d => d.period == "daily" && d.date == date && d.url == (none : Option Nat)

/-- Day number `i` of a pending-day walk that starts at `firstDate` (the body
of the source `while` loop advances `currentDate` by exactly one UTC day per
iteration). -/
def dayAt (firstDate : Int) (i : Nat) : Int := firstDate + i * MS_PER_DAY

/-- One iteration of the `while (currentDate < today)` loop of
`aggregatePendingDays`: skip the day when a global daily summary exists,
otherwise aggregate it and count it. -/
def pendingStep (hostname : String → Option String) (visits : List Visit)
    (firstDate : Int) (acc : List AnalyticsDoc × Nat) (i : Nat) :
    List AnalyticsDoc × Nat :=
  if hasGlobalDaily acc.1 (dayAt firstDate i) then acc
  else (aggregateDay hostname (dayAt firstDate i) visits acc.1, acc.2 + 1)

/-- `aggregatePendingDays`: walk one UTC day at a time from the earliest event
day up to (excluding) today; aggregate, and count, each day lacking a global
daily summary.  The source `while (currentDate < today)` loop advances by
exactly one UTC day per iteration, so it is the fold below over the
`(today - firstDate) / MS_PER_DAY` day indices. -/
def aggregatePendingDays (hostname : String → Option String) (nowMs : Int)
    (visits : List Visit) (store : List AnalyticsDoc) :
    List AnalyticsDoc × Nat :=
  let today := dayStartUTC nowMs
  match earliestVisitAt visits with
  | none => (store, 0)
  | some t0 =>
    let firstDate := dayStartUTC t0
    let numDays := ((today - firstDate).fdiv MS_PER_DAY).toNat
    (List.range numDays).foldl (pendingStep hostname visits firstDate) (store, 0)

/-- Whether the day window `[d, d + MS_PER_DAY - 1]` contains no event. -/
def dayEmpty (visits : List Visit) (d : Int) : Bool :=
  (matchVisits none d (d + (MS_PER_DAY - 1)) visits).isEmpty

/-- Specification count: the days the walk of `aggregatePendingDays` visits
that contain no event and have no global summary in `store`.  These days are
never written (no matching event), so every repeat run over unchanged data
re-examines and re-counts exactly them. -/
def emptyPendingCount (nowMs : Int) (visits : List Visit)
    (store : List AnalyticsDoc) : Nat :=
  match earliestVisitAt visits with
  | none => 0
  | some t0 =>
    let firstDate := dayStartUTC t0
    let numDays := ((dayStartUTC nowMs - firstDate).fdiv MS_PER_DAY).toNat
    ((List.range numDays).filter fun i =>
      !hasGlobalDaily store (dayAt firstDate i) &&
        dayEmpty visits (dayAt firstDate i)).length

/-- `run()`: invokes `aggregatePendingDays`, logs the returned count, and
resolves with no value (`Promise<void>`). -/
def run (hostname : String → Option String) (nowMs : Int) (visits : List Visit)
    (store : List AnalyticsDoc) : List AnalyticsDoc × Unit :=
  ((aggregatePendingDays hostname nowMs visits store).1, ())

end AnalyticsAggregationJob

inductive Period
  | today
  | yesterday
  | last7days
  | last30days
  | last90days
deriving DecidableEq

/-- The reporting date-range input: explicit instants (already parsed from the
ISO strings) and/or a relative period name. -/
structure DateRange where
  startDate : Option Int := none
  endDate : Option Int := none
  period : Option Period := none

structure DeviceStat where
  device : String
  visits : Nat
  uniqueVisits : Nat
deriving DecidableEq

structure DailyStat where
  date : Int
  visits : Nat
  uniqueVisits : Nat
deriving DecidableEq

structure MobileDeviceStat where
  brand : String
  visits : Nat
  uniqueVisits : Nat
deriving DecidableEq

/-- JS `sort((a, b) => a.date.getTime() - b.date.getTime())` on daily
entries. -/
def sortDailyAsc (l : List DailyStat) : List DailyStat :=
  l.insertionSort fun a b => a.date ≤ b.date

structure OverviewStats where
  totalVisits : Nat
  uniqueVisitors : Nat
  topCountries : List CountryEntry
  deviceBreakdown : List DeviceStat
  dailyStats : List DailyStat
deriving DecidableEq

/-- The partial per-category result of one portion (historical or current) of
an overview query. -/
structure OverviewPart where
  totalVisits : Nat
  uniqueVisits : Nat
  countries : List CountryEntry
  devices : List DeviceStat
  dailyStats : List DailyStat
deriving DecidableEq

structure UrlSpecificAnalytics where
  urlId : Nat
  shortCode : String
  title : String
  originalUrl : String
  createdAt : Int
  totalVisits : Nat
  uniqueVisits : Nat
  countries : List CountryEntry
  devices : List DeviceEntry
  mobileDevices : List MobileDeviceStat
  timeline : List DailyStat
deriving DecidableEq

namespace AnalyticsReportService

/-- `getStartOfToday`: UTC midnight of the query instant. -/
def getStartOfToday (nowMs : Int) : Int := dayStartUTC nowMs

/-- `getDateRange`: an explicit `{startDate, endDate}` pair overrides period
resolution; relative periods are resolved with the JS *local-time* `Date`
accessors and constructor, modelled for the fixed server offset `tz`
(milliseconds east of UTC).  The `default` switch branch is unreachable for
the typed period and coincides with the trailing else. -/
def getDateRange (nowMs tz : Int) (dr : DateRange) : Int × Int :=
  match dr.startDate, dr.endDate with
  | some s, some e => (s, e)
  | _, _ =>
    match dr.period with
    | some .today => (localDayStart nowMs tz, nowMs)
    | some .yesterday => (localDayStart nowMs tz - MS_PER_DAY, localDayStart nowMs tz)
    | some .last7days => (nowMs - 7 * MS_PER_DAY, nowMs)
    | some .last30days => (nowMs - 30 * MS_PER_DAY, nowMs)
    | some .last90days => (nowMs - 90 * MS_PER_DAY, nowMs)
    | none => (nowMs - 30 * MS_PER_DAY, nowMs)

/-- `getHistoricalOverviewStats`: read rollup documents for the global scope
and the caller's URLs over `[startDate, endDate]`, then accumulate only the
per-URL documents (the `if (doc.url)` guard skips the global ones). -/
def getHistoricalOverviewStats (urlIds : List Nat) (startDate endDate : Int)
    (analytics : List AnalyticsDoc) : OverviewPart :=
  let analyticsData := analytics.filter fun d =>
    (d.url == (none : Option Nat) || (urlIds.map some).contains d.url) &&
    d.period == "daily" && decide (startDate ≤ d.date) && decide (d.date ≤ endDate)
  let urlDocs := analyticsData.filter fun d => d.url.isSome
  { totalVisits := (urlDocs.map (·.totalVisits)).sum
    uniqueVisits := (urlDocs.map (·.uniqueVisits)).sum
    countries := (urlDocs.foldl (fun m d =>
        d.countries.foldl (fun m c => bumpKey m c.country c.visits c.uniqueVisits) m) []).map
      fun e => ⟨e.1, e.2.1, e.2.2⟩
    devices := (urlDocs.foldl (fun m d =>
        d.devices.foldl (fun m dv => bumpKey m dv.type dv.visits dv.uniqueVisits) m) []).map
      fun e => ⟨e.1, e.2.1, e.2.2⟩
    dailyStats := (urlDocs.foldl (fun m d =>
        bumpKey m (dayStartUTC d.date) d.totalVisits d.uniqueVisits) []).map
      fun e => ⟨e.1, e.2.1, e.2.2⟩ }

/-- `getCurrentDayOverviewStats`: group the raw visits of the caller's URLs
over `[startDate, endDate]` directly.  The daily-stat date is built with the
local-time constructor `new Date(year, month - 1, day)` from the UTC calendar
fields of `visitedAt`, hence the `- tz`. -/
def getCurrentDayOverviewStats (tz : Int) (urlIds : List Nat)
    (startDate endDate : Int) (visits : List Visit) : OverviewPart :=
  let m := visits.filter fun v =>
    urlIds.contains v.url && decide (startDate ≤ v.visitedAt) &&
      decide (v.visitedAt ≤ endDate)
  { totalVisits := m.length
    uniqueVisits := (m.filter (·.isUniqueVisitor)).length
    countries := (sortTriplesDesc (groupVisits (·.country) m)).map
      fun e => ⟨jsOrOpt e.1 "Unknown", e.2.1, e.2.2⟩
    devices := (sortTriplesDesc (groupVisits (·.deviceType) m)).map
      fun e => ⟨jsOrOpt e.1 "unknown", e.2.1, e.2.2⟩
    dailyStats := (sortTriplesAscKey (groupVisits (fun v => dayStartUTC v.visitedAt) m)).map
      fun e => ⟨e.1 - tz, e.2.1, e.2.2⟩ }

/-- `mergeOverviewStats`: additive union of the two portions per category key;
countries re-sorted descending and capped at 10, devices re-sorted descending,
daily stats keyed by the UTC day of their date and re-sorted ascending. -/
def mergeOverviewStats (historical current : Option OverviewPart) : OverviewStats :=
  let histCountries := (historical.map (·.countries)).getD []
  let currCountries := (current.map (·.countries)).getD []
  let countryMap := (histCountries ++ currCountries).foldl
    (fun m s => bumpKey m s.country s.visits s.uniqueVisits) []
  let histDevices := (historical.map (·.devices)).getD []
  let currDevices := (current.map (·.devices)).getD []
  let deviceMap := (histDevices ++ currDevices).foldl
    (fun m s => bumpKey m (jsOr s.device "unknown") s.visits s.uniqueVisits) []
  let histDaily := (historical.map (·.dailyStats)).getD []
  let currDaily := (current.map (·.dailyStats)).getD []
  let dailyMap := (histDaily ++ currDaily).foldl
    (fun m s => bumpKey m (dayStartUTC s.date) s.visits s.uniqueVisits) []
  { totalVisits := (historical.map (·.totalVisits)).getD 0 +
      (current.map (·.totalVisits)).getD 0
    uniqueVisitors := (historical.map (·.uniqueVisits)).getD 0 +
      (current.map (·.uniqueVisits)).getD 0
    topCountries := (sortEntriesDesc (·.visits)
      (countryMap.map fun e => (⟨e.1, e.2.1, e.2.2⟩ : CountryEntry))).take 10
    deviceBreakdown := sortEntriesDesc (·.visits)
      (deviceMap.map fun e => (⟨e.1, e.2.1, e.2.2⟩ : DeviceStat))
    dailyStats := sortDailyAsc
      (dailyMap.map fun e => (⟨e.1, e.2.1, e.2.2⟩ : DailyStat)) }

/-- `getOverviewStats`: resolve the range, split it at today (UTC midnight of
the query instant), read rollups for the historical portion and raw events for
the current-day portion, and merge. -/
def getOverviewStats (nowMs tz : Int) (db : DB) (userId : String)
    (dr : DateRange) : OverviewStats :=
  let r := getDateRange nowMs tz dr
  let startDate := r.1
  let endDate := r.2
  let urlIds := (db.urls.filter fun u => u.createdBy == userId).map (·.id)
  let today := dayStartUTC nowMs
  let historicalStats :=
    if startDate < today then
      some (getHistoricalOverviewStats urlIds startDate
        (if endDate < today then endDate else today - 1) db.analytics)
    else none
  let currentStats :=
    if today ≤ endDate then
      some (getCurrentDayOverviewStats tz urlIds today endDate db.visits)
    else none
  mergeOverviewStats historicalStats currentStats

/-- `getMobileDeviceBreakdown`: brand is not part of the rollup schema, so
this query groups raw visits over the *entire* resolved range, with no
historical/current split and no rollup read. -/
def getMobileDeviceBreakdown (nowMs tz : Int) (db : DB) (userId : String)
    (dr : DateRange) : List MobileDeviceStat :=
  let r := getDateRange nowMs tz dr
  let urlIds := (db.urls.filter fun u => u.createdBy == userId).map (·.id)
  let m := db.visits.filter fun v =>
    urlIds.contains v.url && decide (r.1 ≤ v.visitedAt) && decide (v.visitedAt ≤ r.2) &&
      (v.deviceType == some "mobile" || v.deviceType == some "tablet")
  let stats := sortTriplesDesc (groupVisits (fun v => v.deviceBrand.getD "Unknown") m)
  let mobileDeviceMap := stats.foldl
    (fun acc e => setKey acc (jsOr e.1 "Unknown") e.2.1 e.2.2) []
  sortEntriesDesc (·.visits)
    (mobileDeviceMap.map fun e => (⟨e.1, e.2.1, e.2.2⟩ : MobileDeviceStat))

/-- The rollup documents the single-URL view reads for the historical portion
(empty when the range does not reach before today). -/
def urlSpecHistDocs (nowMs : Int) (analytics : List AnalyticsDoc) (urlId : Nat)
    (startDate endDate : Int) : List AnalyticsDoc :=
  let today := dayStartUTC nowMs
  if startDate < today then
    analytics.filter fun d =>
      d.url == some urlId && d.period == "daily" &&
      decide (startDate ≤ d.date) &&
      decide (d.date ≤ (if endDate < today then endDate else today - 1))
  else []

/-- The raw visits the single-URL view reads for the current-day portion
(empty when the range ends before today). -/
def urlSpecCurrVisits (nowMs : Int) (visits : List Visit) (urlId : Nat)
    (endDate : Int) : List Visit :=
  let today := dayStartUTC nowMs
  if today ≤ endDate then
    visits.filter fun v =>
      v.url == urlId && decide (today ≤ v.visitedAt) && decide (v.visitedAt ≤ endDate)
  else []

/-- The single-URL country map: historical entries bumped first, then the
current-day groups (keys defaulted with `|| 'Unknown'`). -/
def urlSpecCountryMap (histDocs : List AnalyticsDoc) (currVisits : List Visit) :
    List (String × Nat × Nat) :=
  (groupVisits (·.country) currVisits).foldl
    (fun m e => bumpKey m (jsOrOpt e.1 "Unknown") e.2.1 e.2.2)
    (histDocs.foldl (fun m d =>
      d.countries.foldl (fun m c => bumpKey m c.country c.visits c.uniqueVisits) m) [])

/-- The single-URL device-type map. -/
def urlSpecDeviceMap (histDocs : List AnalyticsDoc) (currVisits : List Visit) :
    List (String × Nat × Nat) :=
  (groupVisits (·.deviceType) currVisits).foldl
    (fun m e => bumpKey m (jsOrOpt e.1 "unknown") e.2.1 e.2.2)
    (histDocs.foldl (fun m d =>
      d.devices.foldl (fun m dv => bumpKey m dv.type dv.visits dv.uniqueVisits) m) [])

/-- The single-URL day-by-day timeline map: historical documents use
`Map.set` keyed by the UTC day of the rollup date, the current-day groups are
bumped under the day key produced by the local-time reconstruction
`new Date(year, month - 1, day)` (hence `- tz`). -/
def urlSpecTimelineMap (tz : Int) (histDocs : List AnalyticsDoc)
    (currVisits : List Visit) : List (Int × Nat × Nat) :=
  (groupVisits (fun v => dayStartUTC v.visitedAt) currVisits).foldl
    (fun m e => bumpKey m (dayStartUTC (e.1 - tz)) e.2.1 e.2.2)
    (histDocs.foldl (fun m d =>
      setKey m (dayStartUTC d.date) d.totalVisits d.uniqueVisits) [])

/-- The mobile-brand visits of the single-URL view: the *entire* requested
range, because brand is absent from the rollup schema. -/
def urlSpecMobileVisits (visits : List Visit) (urlId : Nat)
    (startDate endDate : Int) : List Visit :=
  visits.filter fun v =>
    v.url == urlId && decide (startDate ≤ v.visitedAt) && decide (v.visitedAt ≤ endDate) &&
      (v.deviceType == some "mobile" || v.deviceType == some "tablet")

/-- The single-URL mobile-brand map (`$ifNull` key, then `Map.set` with the
`|| 'Unknown'` default). -/
def urlSpecMobileMap (visits : List Visit) (urlId : Nat)
    (startDate endDate : Int) : List (String × Nat × Nat) :=
  (groupVisits (fun v => v.deviceBrand.getD "Unknown")
      (urlSpecMobileVisits visits urlId startDate endDate)).foldl
    (fun acc e => setKey acc (jsOr e.1 "Unknown") e.2.1 e.2.2) []

/-- The successful result body of `getUrlSpecificAnalytics`. -/
def urlSpecBody (nowMs tz : Int) (db : DB) (urlId : Nat) (url : Url)
    (startDate endDate : Int) : UrlSpecificAnalytics :=
  let histDocs := urlSpecHistDocs nowMs db.analytics urlId startDate endDate
  let currVisits := urlSpecCurrVisits nowMs db.visits urlId endDate
  { urlId := url.id
    shortCode := url.shortCode
    title := url.title
    originalUrl := url.originalUrl
    createdAt := url.createdAt
    totalVisits := (histDocs.map (·.totalVisits)).sum + currVisits.length
    uniqueVisits := (histDocs.map (·.uniqueVisits)).sum +
      (currVisits.filter (·.isUniqueVisitor)).length
    countries := sortEntriesDesc (·.visits)
      ((urlSpecCountryMap histDocs currVisits).map
        fun e => (⟨e.1, e.2.1, e.2.2⟩ : CountryEntry))
    devices := sortEntriesDesc (·.visits)
      ((urlSpecDeviceMap histDocs currVisits).map
        fun e => (⟨e.1, e.2.1, e.2.2⟩ : DeviceEntry))
    mobileDevices := sortEntriesDesc (·.visits)
      ((urlSpecMobileMap db.visits urlId startDate endDate).map
        fun e => (⟨e.1, e.2.1, e.2.2⟩ : MobileDeviceStat))
    timeline := sortDailyAsc
      ((urlSpecTimelineMap tz histDocs currVisits).map
        fun e => (⟨e.1, e.2.1, e.2.2⟩ : DailyStat)) }

/-- `getUrlSpecificAnalytics`: the ownership check
(`Url.findOne({_id: urlId, createdBy: userId})`) runs first; its failure
throws `'URL not found or access denied'`, which the surrounding catch wraps
into the returned error message before any analytics query is issued.
Otherwise the same historical/current split is applied per category (the
`urlSpec*` helpers above), plus a day-by-day timeline and the full-range
mobile-brand breakdown. -/
def getUrlSpecificAnalytics (nowMs tz : Int) (db : DB) (urlId : Nat)
    (userId : String) (dr : DateRange) : Except String UrlSpecificAnalytics :=
  match db.urls.find? (fun u => u.id == urlId && u.createdBy == userId) with
  | none => Except.error "Failed to get URL analytics: URL not found or access denied"
  | some url =>
    let r := getDateRange nowMs tz dr
    Except.ok (urlSpecBody nowMs tz db urlId url r.1 r.2)

end AnalyticsReportService

end Linker

/-! ## Supporting lemmas -/

namespace Linker

theorem count_filter_key {κ : Type} [DecidableEq κ] (key : Visit → κ) (l : List Visit)
    (k : κ) :
    (l.filter fun v => decide (key v = k)).length = (l.map key).count k := by
  rw [List.count_eq_countP, List.countP_map]
  rw [← List.countP_eq_length_filter]
  apply List.countP_congr
  intro v _
  by_cases h : key v = k <;> simp [h, Function.comp]

/-- Each Mongo `$group` bucket partitions the matched events, so the bucket
`visits` counters sum to the number of matched events. -/
theorem sum_visits_groupVisits {κ : Type} [DecidableEq κ] (key : Visit → κ)
    (l : List Visit) :
    ((groupVisits key l).map (·.2.1)).sum = l.length := by
  unfold groupVisits
  rw [List.map_map]
  have h1 : ((l.map key).dedup.map
      ((fun e : κ × Nat × Nat => e.2.1) ∘ fun k =>
        (k, (l.filter fun v => decide (key v = k)).length,
            (l.filter fun v => decide (key v = k) && v.isUniqueVisitor).length))) =
      ((l.map key).dedup.map fun k => (l.map key).count k) := by
    apply List.map_congr_left
    intro k _
    exact count_filter_key key l k
  rw [h1, List.sum_map_count_dedup_eq_length, List.length_map]

theorem sum_map_sortTriplesDesc {κ : Type} (f : κ × Nat × Nat → Nat)
    (l : List (κ × Nat × Nat)) :
    ((sortTriplesDesc l).map f).sum = (l.map f).sum :=
  ((List.perm_insertionSort _ l).map f).sum_eq

theorem sum_map_sortTriplesAscKey (f : Int × Nat × Nat → Nat)
    (l : List (Int × Nat × Nat)) :
    ((sortTriplesAscKey l).map f).sum = (l.map f).sum :=
  ((List.perm_insertionSort _ l).map f).sum_eq

theorem string_data_inj {a b : String} (h : a.data = b.data) : a = b := by
  cases a
  cases b
  exact congrArg String.mk h

/-- Appending different suffixes to the same string yields different strings;
this is what makes `generateSessionId` injective in its hour bucket. -/
theorem string_append_right_ne (x : String) {a b : String} (h : a ≠ b) :
    x ++ a ≠ x ++ b := by
  intro he
  apply h
  apply string_data_inj
  have hd := congrArg String.data he
  simp only [String.data_append] at hd
  exact List.append_cancel_left hd

theorem bool_reshuffle (a b c d : Bool) :
    (((a && b) && c) && d) = ((a && d) && (b && c)) := by
  cases a <;> cases b <;> cases c <;> cases d <;> rfl

namespace AnalyticsAggregationJob

theorem sameKey_fields {x doc : AnalyticsDoc} (h : sameKey x doc = true) :
    x.url = doc.url ∧ x.period = doc.period ∧ x.date = doc.date := by
  simpa [sameKey, Bool.and_eq_true, beq_iff_eq, and_assoc] using h

theorem upsert_any_eq (P : AnalyticsDoc → Bool) (doc : AnalyticsDoc)
    (store : List AnalyticsDoc) (hdoc : P doc = false)
    (hk : ∀ x, sameKey x doc = true → P x = false) :
    (upsertAnalytics doc store).any P = store.any P := by
  induction store with
  | nil => simp [upsertAnalytics, hdoc]
  | cons d rest ih =>
    by_cases hsk : sameKey d doc = true
    · simp [upsertAnalytics, hsk, hdoc, hk d hsk]
    · simp only [upsertAnalytics, hsk, ite_false, if_neg, Bool.false_eq_true,
        not_false_eq_true, List.any_cons, ih]

theorem upsert_any_true (P : AnalyticsDoc → Bool) (doc : AnalyticsDoc)
    (store : List AnalyticsDoc) (hdoc : P doc = true) :
    (upsertAnalytics doc store).any P = true := by
  induction store with
  | nil => simp [upsertAnalytics, hdoc]
  | cons d rest ih =>
    by_cases hsk : sameKey d doc = true
    · simp [upsertAnalytics, hsk, hdoc]
    · simp [upsertAnalytics, hsk, ih]

theorem upsert_filter_eq (P : AnalyticsDoc → Bool) (doc : AnalyticsDoc)
    (store : List AnalyticsDoc) (hdoc : P doc = false)
    (hk : ∀ x, sameKey x doc = true → P x = false) :
    (upsertAnalytics doc store).filter P = store.filter P := by
  induction store with
  | nil => simp [upsertAnalytics, hdoc]
  | cons d rest ih =>
    by_cases hsk : sameKey d doc = true
    · simp [upsertAnalytics, hsk, hdoc, hk d hsk]
    · simp only [upsertAnalytics, hsk, ite_false, if_neg, Bool.false_eq_true,
        not_false_eq_true]
      rw [List.filter_cons, List.filter_cons, ih]

theorem upsert_mem {x doc : AnalyticsDoc} {store : List AnalyticsDoc}
    (h : x ∈ upsertAnalytics doc store) : x = doc ∨ x ∈ store := by
  induction store with
  | nil => simpa [upsertAnalytics] using h
  | cons d rest ih =>
    by_cases hsk : sameKey d doc = true
    · simp only [upsertAnalytics, hsk, ite_true, if_pos] at h
      rcases List.mem_cons.mp h with h | h
      · exact Or.inl h
      · exact Or.inr (List.mem_cons_of_mem d h)
    · simp only [upsertAnalytics, hsk, ite_false, if_neg, Bool.false_eq_true,
        not_false_eq_true] at h
      rcases List.mem_cons.mp h with h | h
      · exact Or.inr (h ▸ List.mem_cons_self d rest)
      · rcases ih h with h | h
        · exact Or.inl h
        · exact Or.inr (List.mem_cons_of_mem d h)

/-- A summary document the job builds carries the scope, the `'daily'` period,
the day start, and at least one visit (otherwise the early return fires). -/
theorem build_some_fields {hostname : String → Option String} {urlId : Option Nat}
    {startOfDay endOfDay : Int} {visits : List Visit} {doc : AnalyticsDoc}
    (h : buildAnalyticsDoc hostname urlId startOfDay endOfDay visits = some doc) :
    doc.url = urlId ∧ doc.period = "daily" ∧ doc.date = startOfDay ∧
      1 ≤ doc.totalVisits := by
  unfold buildAnalyticsDoc at h
  by_cases h0 : (matchVisits urlId startOfDay endOfDay visits).length = 0
  · simp [h0] at h
  · simp only [h0, ite_false, if_neg] at h
    injection h with h
    subst h
    exact ⟨rfl, rfl, rfl, Nat.pos_of_ne_zero h0⟩

theorem build_eq_none_of_empty (hostname : String → Option String)
    (urlId : Option Nat) (startOfDay endOfDay : Int) {visits : List Visit}
    (h : matchVisits urlId startOfDay endOfDay visits = []) :
    buildAnalyticsDoc hostname urlId startOfDay endOfDay visits = none := by
  unfold buildAnalyticsDoc
  simp [h]

theorem build_none_imp_empty {hostname : String → Option String}
    {urlId : Option Nat} {startOfDay endOfDay : Int} {visits : List Visit}
    (h : buildAnalyticsDoc hostname urlId startOfDay endOfDay visits = none) :
    matchVisits urlId startOfDay endOfDay visits = [] := by
  unfold buildAnalyticsDoc at h
  by_cases h0 : (matchVisits urlId startOfDay endOfDay visits).length = 0
  · exact List.length_eq_zero.mp h0
  · simp [h0] at h

theorem afu_id_of_empty (hostname : String → Option String) (urlId : Option Nat)
    (startOfDay endOfDay : Int) {visits : List Visit} (store : List AnalyticsDoc)
    (h : matchVisits urlId startOfDay endOfDay visits = []) :
    aggregateForUrl hostname urlId startOfDay endOfDay visits store = store := by
  unfold aggregateForUrl
  rw [build_eq_none_of_empty hostname urlId startOfDay endOfDay h]

theorem afu_hasGlobal_some (hostname : String → Option String) (u : Nat)
    (startOfDay endOfDay : Int) (visits : List Visit) (store : List AnalyticsDoc)
    (d : Int) :
    hasGlobalDaily (aggregateForUrl hostname (some u) startOfDay endOfDay visits store) d =
      hasGlobalDaily store d := by
  unfold aggregateForUrl
  cases hb : buildAnalyticsDoc hostname (some u) startOfDay endOfDay visits with
  | none => rfl
  | some doc =>
    have hdu := (build_some_fields hb).1
    unfold hasGlobalDaily
    apply upsert_any_eq
    · simp [hdu]
    · intro x hx
      have := (sameKey_fields hx).1
      simp [this, hdu]

theorem afu_hasGlobal_none_ne (hostname : String → Option String)
    (startOfDay endOfDay : Int) (visits : List Visit) (store : List AnalyticsDoc)
    {d : Int} (hne : startOfDay ≠ d) :
    hasGlobalDaily (aggregateForUrl hostname none startOfDay endOfDay visits store) d =
      hasGlobalDaily store d := by
  unfold aggregateForUrl
  cases hb : buildAnalyticsDoc hostname none startOfDay endOfDay visits with
  | none => rfl
  | some doc =>
    have hdd := (build_some_fields hb).2.2.1
    unfold hasGlobalDaily
    apply upsert_any_eq
    · simp [hdd, hne]
    · intro x hx
      have := (sameKey_fields hx).2.2
      simp [this, hdd, hne]

theorem afu_hasGlobal_none_self (hostname : String → Option String)
    (startOfDay endOfDay : Int) (visits : List Visit) (store : List AnalyticsDoc)
    (hne : matchVisits none startOfDay endOfDay visits ≠ []) :
    hasGlobalDaily (aggregateForUrl hostname none startOfDay endOfDay visits store)
      startOfDay = true := by
  unfold aggregateForUrl
  cases hb : buildAnalyticsDoc hostname none startOfDay endOfDay visits with
  | none => exact absurd (build_none_imp_empty hb) hne
  | some doc =>
    obtain ⟨hdu, hdp, hdd, -⟩ := build_some_fields hb
    unfold hasGlobalDaily
    apply upsert_any_true
    simp [hdu, hdp, hdd]

theorem afu_filter (hostname : String → Option String) (urlId : Option Nat)
    (startOfDay endOfDay : Int) (visits : List Visit) (store : List AnalyticsDoc)
    (P : AnalyticsDoc → Bool) (hp : ∀ x, x.date = startOfDay → P x = false) :
    (aggregateForUrl hostname urlId startOfDay endOfDay visits store).filter P =
      store.filter P := by
  unfold aggregateForUrl
  cases hb : buildAnalyticsDoc hostname urlId startOfDay endOfDay visits with
  | none => rfl
  | some doc =>
    have hdd := (build_some_fields hb).2.2.1
    exact upsert_filter_eq P doc store (hp doc hdd)
      (fun x hx => hp x ((sameKey_fields hx).2.2.trans hdd))

theorem afu_mem (hostname : String → Option String) (urlId : Option Nat)
    (startOfDay endOfDay : Int) (visits : List Visit) {store : List AnalyticsDoc}
    {x : AnalyticsDoc}
    (h : x ∈ aggregateForUrl hostname urlId startOfDay endOfDay visits store) :
    x ∈ store ∨ 1 ≤ x.totalVisits := by
  unfold aggregateForUrl at h
  cases hb : buildAnalyticsDoc hostname urlId startOfDay endOfDay visits with
  | none => rw [hb] at h; exact Or.inl h
  | some doc =>
    rw [hb] at h
    rcases upsert_mem h with h | h
    · exact Or.inr (h ▸ (build_some_fields hb).2.2.2)
    · exact Or.inl h

theorem foldl_afu_hasGlobal (hostname : String → Option String)
    (startOfDay endOfDay : Int) (visits : List Visit) (us : List Nat)
    (st : List AnalyticsDoc) (d : Int) :
    hasGlobalDaily (us.foldl
      (fun st u => aggregateForUrl hostname (some u) startOfDay endOfDay visits st) st) d =
      hasGlobalDaily st d := by
  induction us generalizing st with
  | nil => rfl
  | cons u us ih => rw [List.foldl_cons, ih, afu_hasGlobal_some]

theorem foldl_afu_filter (hostname : String → Option String)
    (startOfDay endOfDay : Int) (visits : List Visit) (us : List Nat)
    (st : List AnalyticsDoc) (P : AnalyticsDoc → Bool)
    (hp : ∀ x, x.date = startOfDay → P x = false) :
    (us.foldl
      (fun st u => aggregateForUrl hostname (some u) startOfDay endOfDay visits st) st).filter P =
      st.filter P := by
  induction us generalizing st with
  | nil => rfl
  | cons u us ih => rw [List.foldl_cons, ih, afu_filter _ _ _ _ _ _ P hp]

theorem foldl_afu_mem (hostname : String → Option String)
    (startOfDay endOfDay : Int) (visits : List Visit) (us : List Nat)
    {st : List AnalyticsDoc} {x : AnalyticsDoc}
    (h : x ∈ us.foldl
      (fun st u => aggregateForUrl hostname (some u) startOfDay endOfDay visits st) st) :
    x ∈ st ∨ 1 ≤ x.totalVisits := by
  induction us generalizing st with
  | nil => exact Or.inl h
  | cons u us ih =>
    rw [List.foldl_cons] at h
    rcases ih h with h | h
    · exact afu_mem hostname (some u) startOfDay endOfDay visits h
    · exact Or.inr h

theorem aggregateDay_id_of_empty (hostname : String → Option String) {d : Int}
    (visits : List Visit) (store : List AnalyticsDoc) (hd : dayStartUTC d = d)
    (he : dayEmpty visits d = true) :
    aggregateDay hostname d visits store = store := by
  have hm : matchVisits none d (d + (MS_PER_DAY - 1)) visits = [] :=
    List.isEmpty_iff.mp he
  unfold aggregateDay
  rw [hd, hm]
  simp [afu_id_of_empty hostname none d (d + (MS_PER_DAY - 1)) store hm]

theorem aggregateDay_hasGlobal_self (hostname : String → Option String) {d : Int}
    (visits : List Visit) (store : List AnalyticsDoc) (hd : dayStartUTC d = d)
    (he : dayEmpty visits d = false) :
    hasGlobalDaily (aggregateDay hostname d visits store) d = true := by
  unfold aggregateDay
  rw [hd, foldl_afu_hasGlobal]
  apply afu_hasGlobal_none_self
  intro hm
  rw [dayEmpty, hm] at he
  simp at he

theorem aggregateDay_hasGlobal_ne (hostname : String → Option String) {d d' : Int}
    (visits : List Visit) (store : List AnalyticsDoc) (hd : dayStartUTC d = d)
    (hne : d ≠ d') :
    hasGlobalDaily (aggregateDay hostname d visits store) d' =
      hasGlobalDaily store d' := by
  unfold aggregateDay
  rw [hd, foldl_afu_hasGlobal, afu_hasGlobal_none_ne _ _ _ _ _ hne]

theorem aggregateDay_filter (hostname : String → Option String) {d : Int}
    (visits : List Visit) (store : List AnalyticsDoc) (hd : dayStartUTC d = d)
    (P : AnalyticsDoc → Bool) (hp : ∀ x, x.date = d → P x = false) :
    (aggregateDay hostname d visits store).filter P = store.filter P := by
  unfold aggregateDay
  rw [hd, foldl_afu_filter _ _ _ _ _ _ P hp, afu_filter _ _ _ _ _ _ P hp]

theorem aggregateDay_mem (hostname : String → Option String) {d : Int}
    (visits : List Visit) {store : List AnalyticsDoc} {x : AnalyticsDoc}
    (h : x ∈ aggregateDay hostname d visits store) :
    x ∈ store ∨ 1 ≤ x.totalVisits := by
  unfold aggregateDay at h
  rcases foldl_afu_mem _ _ _ _ _ h with h | h
  · exact afu_mem _ _ _ _ _ h
  · exact Or.inr h

theorem MS_PER_DAY_ne_zero : MS_PER_DAY ≠ 0 := by decide

theorem MS_PER_DAY_pos : (0 : Int) < MS_PER_DAY := by decide

theorem dayStartUTC_idem (t : Int) : dayStartUTC (dayStartUTC t) = dayStartUTC t := by
  unfold dayStartUTC
  rw [Int.mul_fdiv_cancel _ MS_PER_DAY_ne_zero]

theorem exists_mul_of_dayStart {f : Int} (hf : dayStartUTC f = f) :
    ∃ k, f = MS_PER_DAY * k := by
  refine ⟨f.fdiv MS_PER_DAY, ?_⟩
  calc f = dayStartUTC f := hf.symm
    _ = MS_PER_DAY * f.fdiv MS_PER_DAY := by unfold dayStartUTC; ring

theorem dayStartUTC_dayAt {f : Int} (hf : dayStartUTC f = f) (i : Nat) :
    dayStartUTC (dayAt f i) = dayAt f i := by
  obtain ⟨k, hk⟩ := exists_mul_of_dayStart hf
  subst hk
  unfold dayAt dayStartUTC
  have h1 : MS_PER_DAY * k + (i : Int) * MS_PER_DAY = MS_PER_DAY * (k + i) := by ring
  rw [h1, Int.mul_fdiv_cancel_left _ MS_PER_DAY_ne_zero]
  ring

theorem dayAt_inj {f : Int} {i j : Nat} (hij : i ≠ j) : dayAt f i ≠ dayAt f j := by
  unfold dayAt
  intro h
  have h1 : (i : Int) * MS_PER_DAY = (j : Int) * MS_PER_DAY := by linarith
  have h2 : (i : Int) = (j : Int) := mul_right_cancel₀ MS_PER_DAY_ne_zero h1
  exact hij (Nat.cast_injective h2)

/-- Every day the pending walk visits lies strictly before today. -/
theorem dayAt_lt {f T : Int} (hf : dayStartUTC f = f) (hT : dayStartUTC T = T)
    {i : Nat} (hi : i < ((T - f).fdiv MS_PER_DAY).toNat) : dayAt f i < T := by
  obtain ⟨kf, hkf⟩ := exists_mul_of_dayStart hf
  obtain ⟨kt, hkt⟩ := exists_mul_of_dayStart hT
  subst hkf
  subst hkt
  have hdiff : MS_PER_DAY * kt - MS_PER_DAY * kf = MS_PER_DAY * (kt - kf) := by ring
  rw [hdiff, Int.mul_fdiv_cancel_left _ MS_PER_DAY_ne_zero] at hi
  have h1 : (i : Int) < kt - kf := Int.lt_toNat.mp hi
  unfold dayAt
  have h2 : kf + (i : Int) < kt := by linarith
  have h3 := mul_lt_mul_of_pos_left h2 MS_PER_DAY_pos
  linarith [h3]

/-- After the pending walk, a day has a global daily summary iff the initial
store had one or the day actually contains events (days with no events are
never written, the early return in `aggregateForUrl` fires for them). -/
theorem pendingFold_hasGlobal (hostname : String → Option String)
    (visits : List Visit) {f : Int} (hf : dayStartUTC f = f) (n : Nat)
    (store : List AnalyticsDoc) (c0 : Nat) (j : Nat) :
    hasGlobalDaily ((List.range n).foldl (pendingStep hostname visits f) (store, c0)).1
        (dayAt f j) =
      (hasGlobalDaily store (dayAt f j) ||
        (decide (j < n) && !dayEmpty visits (dayAt f j))) := by
  induction n with
  | zero => simp
  | succ n ih =>
    rw [List.range_succ, List.foldl_append, List.foldl_cons, List.foldl_nil]
    set R := (List.range n).foldl (pendingStep hostname visits f) (store, c0) with hR
    unfold pendingStep
    by_cases hg : hasGlobalDaily R.1 (dayAt f n) = true
    · rw [if_pos hg]
      by_cases hj : j = n
      · subst hj
        have hs := ih.symm.trans hg
        simp at hs
        simp [hg, hs]
      · have hiff : (j < n) ↔ (j < n + 1) := by omega
        rw [← decide_eq_decide.mpr hiff]
        exact ih
    · rw [if_neg hg]
      have hgf : hasGlobalDaily R.1 (dayAt f n) = false := by
        exact Bool.not_eq_true _ ▸ eq_false_of_ne_true hg
      by_cases hj : j = n
      · subst hj
        have hs := ih.symm.trans hgf
        simp at hs
        by_cases hE : dayEmpty visits (dayAt f j) = true
        · rw [aggregateDay_id_of_empty hostname visits R.1 (dayStartUTC_dayAt hf j) hE]
          simp [hgf, hs, hE]
        · have hEf : dayEmpty visits (dayAt f j) = false := eq_false_of_ne_true hE
          rw [aggregateDay_hasGlobal_self hostname visits R.1 (dayStartUTC_dayAt hf j) hEf]
          simp [hEf]
      · rw [aggregateDay_hasGlobal_ne hostname visits R.1 (dayStartUTC_dayAt hf n)
          (dayAt_inj (fun h => hj h.symm))]
        have hiff : (j < n) ↔ (j < n + 1) := by omega
        rw [← decide_eq_decide.mpr hiff]
        exact ih

/-- A repeat walk over a store satisfying the first-run characterisation
changes nothing and counts exactly the event-free days that had no summary in
the original store. -/
theorem pendingFold_second (hostname : String → Option String)
    (visits : List Visit) {f : Int} (hf : dayStartUTC f = f) (n : Nat)
    (store s1 : List AnalyticsDoc)
    (hchar : ∀ j, j < n → hasGlobalDaily s1 (dayAt f j) =
      (hasGlobalDaily store (dayAt f j) || !dayEmpty visits (dayAt f j))) :
    (List.range n).foldl (pendingStep hostname visits f) (s1, 0) =
      (s1, ((List.range n).filter fun i =>
        !hasGlobalDaily store (dayAt f i) && dayEmpty visits (dayAt f i)).length) := by
  induction n with
  | zero => simp
  | succ n ih =>
    rw [List.range_succ, List.foldl_append, List.foldl_cons, List.foldl_nil,
      ih (fun j hj => hchar j (Nat.lt_succ_of_lt hj)), List.filter_append]
    have hn := hchar n (Nat.lt_succ_self n)
    unfold pendingStep
    by_cases hsg : hasGlobalDaily store (dayAt f n) = true
    · rw [hn, hsg]
      simp [hsg]
    · have hsgf : hasGlobalDaily store (dayAt f n) = false := eq_false_of_ne_true hsg
      by_cases hE : dayEmpty visits (dayAt f n) = true
      · rw [hn, hsgf, hE]
        simp only [Bool.not_true, Bool.or_false, if_neg, Bool.false_eq_true,
          not_false_eq_true, ite_false]
        rw [aggregateDay_id_of_empty hostname visits s1 (dayStartUTC_dayAt hf n) hE]
        simp [hsgf, hE]
      · have hEf : dayEmpty visits (dayAt f n) = false := eq_false_of_ne_true hE
        rw [hn, hsgf, hEf]
        simp [hsgf, hEf]

theorem pendingFold_filter (hostname : String → Option String)
    (visits : List Visit) {f : Int} (hf : dayStartUTC f = f) (n : Nat)
    (store : List AnalyticsDoc) (c0 : Nat) (P : AnalyticsDoc → Bool)
    (hp : ∀ i : Nat, i < n → ∀ x, x.date = dayAt f i → P x = false) :
    ((List.range n).foldl (pendingStep hostname visits f) (store, c0)).1.filter P =
      store.filter P := by
  induction n generalizing c0 with
  | zero => simp
  | succ n ih =>
    rw [List.range_succ, List.foldl_append, List.foldl_cons, List.foldl_nil]
    set R := (List.range n).foldl (pendingStep hostname visits f) (store, c0) with hR
    have hRf : R.1.filter P = store.filter P := ih c0 (fun i hi => hp i (Nat.lt_succ_of_lt hi))
    unfold pendingStep
    by_cases hg : hasGlobalDaily R.1 (dayAt f n) = true
    · rw [if_pos hg]
      exact hRf
    · rw [if_neg hg]
      rw [aggregateDay_filter hostname visits R.1 (dayStartUTC_dayAt hf n) P
        (hp n (Nat.lt_succ_self n))]
      exact hRf

theorem pendingFold_mem (hostname : String → Option String)
    (visits : List Visit) (f : Int) (n : Nat)
    {store : List AnalyticsDoc} (c0 : Nat) {x : AnalyticsDoc}
    (h : x ∈ ((List.range n).foldl (pendingStep hostname visits f) (store, c0)).1) :
    x ∈ store ∨ 1 ≤ x.totalVisits := by
  induction n generalizing c0 with
  | zero => exact Or.inl h
  | succ n ih =>
    rw [List.range_succ, List.foldl_append, List.foldl_cons, List.foldl_nil] at h
    set R := (List.range n).foldl (pendingStep hostname visits f) (store, c0) with hR
    unfold pendingStep at h
    by_cases hg : hasGlobalDaily R.1 (dayAt f n) = true
    · rw [if_pos hg] at h
      exact ih c0 h
    · rw [if_neg hg] at h
      rcases aggregateDay_mem hostname visits h with h | h
      · exact ih c0 h
      · exact Or.inr h

theorem aggregatePendingDays_eq_none (hostname : String → Option String)
    (nowMs : Int) {visits : List Visit} (store : List AnalyticsDoc)
    (hE : earliestVisitAt visits = none) :
    aggregatePendingDays hostname nowMs visits store = (store, 0) := by
  unfold aggregatePendingDays
  rw [hE]

theorem aggregatePendingDays_eq_fold (hostname : String → Option String)
    (nowMs : Int) {visits : List Visit} (store : List AnalyticsDoc) {t0 : Int}
    (hE : earliestVisitAt visits = some t0) :
    aggregatePendingDays hostname nowMs visits store =
      (List.range ((dayStartUTC nowMs - dayStartUTC t0).fdiv MS_PER_DAY).toNat).foldl
        (pendingStep hostname visits (dayStartUTC t0)) (store, 0) := by
  unfold aggregatePendingDays
  rw [hE]

theorem emptyPendingCount_eq_none (nowMs : Int) {visits : List Visit}
    (store : List AnalyticsDoc) (hE : earliestVisitAt visits = none) :
    emptyPendingCount nowMs visits store = 0 := by
  unfold emptyPendingCount
  rw [hE]

theorem emptyPendingCount_eq_filter (nowMs : Int) {visits : List Visit}
    (store : List AnalyticsDoc) {t0 : Int} (hE : earliestVisitAt visits = some t0) :
    emptyPendingCount nowMs visits store =
      ((List.range ((dayStartUTC nowMs - dayStartUTC t0).fdiv MS_PER_DAY).toNat).filter
        fun i => !hasGlobalDaily store (dayAt (dayStartUTC t0) i) &&
          dayEmpty visits (dayAt (dayStartUTC t0) i)).length := by
  unfold emptyPendingCount
  rw [hE]

end AnalyticsAggregationJob

theorem filter_time_split (urlIds : List Nat) (s e : Int) (l : List Visit) :
    (l.filter fun v =>
      urlIds.contains v.url && decide (s ≤ v.visitedAt) && decide (v.visitedAt ≤ e) &&
        (v.deviceType == some "mobile" || v.deviceType == some "tablet")) =
    ((l.filter fun v => decide (s ≤ v.visitedAt) && decide (v.visitedAt ≤ e)).filter fun v =>
      urlIds.contains v.url &&
        (v.deviceType == some "mobile" || v.deviceType == some "tablet")) := by
  rw [List.filter_filter]
  apply List.filter_congr
  intro v _
  exact bool_reshuffle _ _ _ _

theorem urlspec_filter_time_split (urlId : Nat) (s e : Int) (l : List Visit) :
    (l.filter fun v =>
      v.url == urlId && decide (s ≤ v.visitedAt) && decide (v.visitedAt ≤ e) &&
        (v.deviceType == some "mobile" || v.deviceType == some "tablet")) =
    ((l.filter fun v => decide (s ≤ v.visitedAt) && decide (v.visitedAt ≤ e)).filter fun v =>
      v.url == urlId &&
        (v.deviceType == some "mobile" || v.deviceType == some "tablet")) := by
  rw [List.filter_filter]
  apply List.filter_congr
  intro v _
  exact bool_reshuffle _ _ _ _

theorem map_mobileDevices_ok (x : UrlSpecificAnalytics) :
    Except.map (fun r : UrlSpecificAnalytics => r.mobileDevices)
      (Except.ok x : Except String UrlSpecificAnalytics) =
      Except.ok x.mobileDevices := rfl

theorem urlSpecBody_mobileDevices (nowMs tz : Int) (db : DB) (urlId : Nat)
    (u : Url) (s e : Int) :
    (AnalyticsReportService.urlSpecBody nowMs tz db urlId u s e).mobileDevices =
      sortEntriesDesc (fun x => x.visits)
        ((AnalyticsReportService.urlSpecMobileMap db.visits urlId s e).map
          fun p => (⟨p.1, p.2.1, p.2.2⟩ : MobileDeviceStat)) := rfl

end Linker

/-! ## Concrete sample data used to instantiate theorems -/

namespace Linker

/-- One raw event at the epoch UTC midnight. -/
def sampleVisit : Visit :=
  { url := 1, visitedAt := 0, isUniqueVisitor := true }

/-- The global rollup document `buildAnalyticsDoc` produces for the one-event
day `[sampleVisit]` (one visit, every group key defaulted). -/
def sampleRollupDoc : AnalyticsDoc :=
  { url := none, period := "daily", date := 0, totalVisits := 1, uniqueVisits := 1
    countries := [⟨"Unknown", 1, 1⟩], devices := [⟨"unknown", 1, 1⟩]
    browsers := [⟨"Unknown", 1, 1⟩], hourlyBreakdown := [⟨0, 1, 1⟩]
    referrers := [⟨"direct", 1, 1⟩] }

/-- Two events with an empty gap day between them (days 0 and 2 of the epoch),
used to exercise the pending-day walk with "today" = day 3. -/
def gapVisits : List Visit :=
  [{ url := 1, visitedAt := 0, isUniqueVisitor := true },
   { url := 1, visitedAt := 172800000 }]

/-! ## Claims -/

/-- Claim C1, counterexample: with raw events on days 0 and 2 only (day 1 is
empty) and "today" = day 3, the second Aggregator run over the unchanged event
store does *not* aggregate 0 days — the empty day 1 never received a global
summary, so the walk counts it again (the count is 1, not 0). -/
theorem C1_counterexample :
    (AnalyticsAggregationJob.aggregatePendingDays (fun _ => none) 259200000 gapVisits
      ((AnalyticsAggregationJob.aggregatePendingDays (fun _ => none) 259200000 gapVisits
        []).1)).2 ≠ 0 := by decide

/-- Claim C1, amended: a second `aggregatePendingDays` run at the same instant
over an unchanged event store leaves the rollup store byte-identical (it
performs no write), and its days-aggregated count equals the number of
walked days that contain no event and had no global summary before the first
run — which is 0 exactly when every day from the first event through yesterday
has at least one event. -/
theorem C1_rerun_identical (hostname : String → Option String) (nowMs : Int)
    (visits : List Visit) (store : List AnalyticsDoc) :
    (AnalyticsAggregationJob.aggregatePendingDays hostname nowMs visits
        ((AnalyticsAggregationJob.aggregatePendingDays hostname nowMs visits store).1)).1 =
      (AnalyticsAggregationJob.aggregatePendingDays hostname nowMs visits store).1 ∧
    (AnalyticsAggregationJob.aggregatePendingDays hostname nowMs visits
        ((AnalyticsAggregationJob.aggregatePendingDays hostname nowMs visits store).1)).2 =
      AnalyticsAggregationJob.emptyPendingCount nowMs visits store := by
  cases hE : AnalyticsAggregationJob.earliestVisitAt visits with
  | none =>
    rw [AnalyticsAggregationJob.aggregatePendingDays_eq_none hostname nowMs _ hE,
      AnalyticsAggregationJob.aggregatePendingDays_eq_none hostname nowMs _ hE,
      AnalyticsAggregationJob.emptyPendingCount_eq_none nowMs _ hE]
    exact ⟨rfl, rfl⟩
  | some t0 =>
    have hf : dayStartUTC (dayStartUTC t0) = dayStartUTC t0 :=
      AnalyticsAggregationJob.dayStartUTC_idem t0
    set f := dayStartUTC t0 with hfdef
    set n := ((dayStartUTC nowMs - f).fdiv MS_PER_DAY).toNat with hndef
    set r1 := (List.range n).foldl
      (AnalyticsAggregationJob.pendingStep hostname visits f) (store, 0) with hr1
    have he1 : AnalyticsAggregationJob.aggregatePendingDays hostname nowMs visits store = r1 :=
      AnalyticsAggregationJob.aggregatePendingDays_eq_fold hostname nowMs store hE
    have hchar : ∀ j, j < n →
        AnalyticsAggregationJob.hasGlobalDaily r1.1 (AnalyticsAggregationJob.dayAt f j) =
        (AnalyticsAggregationJob.hasGlobalDaily store (AnalyticsAggregationJob.dayAt f j) ||
          !AnalyticsAggregationJob.dayEmpty visits (AnalyticsAggregationJob.dayAt f j)) := by
      intro j hj
      rw [hr1, AnalyticsAggregationJob.pendingFold_hasGlobal hostname visits hf n store 0 j]
      simp [hj]
    have h2 := AnalyticsAggregationJob.pendingFold_second hostname visits hf n store r1.1 hchar
    rw [he1, AnalyticsAggregationJob.aggregatePendingDays_eq_fold hostname nowMs r1.1 hE,
      AnalyticsAggregationJob.emptyPendingCount_eq_filter nowMs store hE,
      ← hfdef, ← hndef, h2]
    exact ⟨rfl, rfl⟩

/-- Claim C2: with "today" = 2024-01-02, one stored per-URL rollup for
2024-01-01 carrying `totalVisits = 5`, and three live raw events on 2024-01-02
for the same owned URL, an overview query over [2024-01-01, end of 2024-01-02]
returns `totalVisits = 8`: the historical portion (5, read from the rollup)
plus the live portion (3, counted from the raw events of today). -/
theorem C2_overview_merge_totalVisits :
    (AnalyticsReportService.getOverviewStats 1704200400000 0
      ⟨[{ id := 1, createdBy := "alice" }],
       [{ url := 1, visitedAt := 1704189600000, isUniqueVisitor := true },
        { url := 1, visitedAt := 1704193200000 },
        { url := 1, visitedAt := 1704196800000 }],
       [{ url := some 1, period := "daily", date := 1704067200000, totalVisits := 5,
          uniqueVisits := 2, countries := [⟨"US", 5, 2⟩], devices := [⟨"desktop", 5, 2⟩],
          browsers := [⟨"Chrome", 5, 2⟩], hourlyBreakdown := [⟨10, 5, 2⟩],
          referrers := [⟨"direct", 5, 2⟩] }]⟩
      "alice" { startDate := some 1704067200000, endDate := some 1704239999999 }).totalVisits
      = 8 := by decide

/-- Claim C3: in every rollup document the Aggregator writes, the per-entry
`visits` of the country, device, browser and hourly breakdowns each sum to
`totalVisits` (the groups partition the day's events), while the referrer
breakdown sums to at most `totalVisits` because it is capped to the top 20
groups. -/
theorem C3_rollup_sum_invariant (hostname : String → Option String)
    (urlId : Option Nat) (startOfDay endOfDay : Int) (visits : List Visit)
    (doc : AnalyticsDoc)
    (h : AnalyticsAggregationJob.buildAnalyticsDoc hostname urlId startOfDay endOfDay
      visits = some doc) :
    ((doc.countries.map (·.visits)).sum = doc.totalVisits ∧
     (doc.devices.map (·.visits)).sum = doc.totalVisits ∧
     (doc.browsers.map (·.visits)).sum = doc.totalVisits ∧
     (doc.hourlyBreakdown.map (·.visits)).sum = doc.totalVisits) ∧
    (doc.referrers.map (·.visits)).sum ≤ doc.totalVisits := by
  unfold AnalyticsAggregationJob.buildAnalyticsDoc at h
  by_cases h0 : (AnalyticsAggregationJob.matchVisits urlId startOfDay endOfDay
      visits).length = 0
  · simp [h0] at h
  · simp only [h0, ite_false, if_neg] at h
    injection h with h
    subst h
    dsimp only
    refine ⟨⟨?_, ?_, ?_, ?_⟩, ?_⟩
    · rw [List.map_map]
      exact (sum_map_sortTriplesDesc _ _).trans (sum_visits_groupVisits _ _)
    · rw [List.map_map]
      exact (sum_map_sortTriplesDesc _ _).trans (sum_visits_groupVisits _ _)
    · rw [List.map_map]
      exact (sum_map_sortTriplesDesc _ _).trans (sum_visits_groupVisits _ _)
    · rw [List.map_map]
      exact (sum_map_sortTriplesAscKey _ _).trans (sum_visits_groupVisits _ _)
    · rw [List.map_map, List.map_take]
      calc (((sortTriplesDesc (groupVisits (fun v => v.referer)
              (AnalyticsAggregationJob.matchVisits urlId startOfDay endOfDay visits))).map
              ((fun x : ReferrerEntry => x.visits) ∘ fun e =>
                (⟨AnalyticsAggregationJob.extractDomain hostname e.1, e.2.1, e.2.2⟩ :
                  ReferrerEntry))).take 20).sum
          ≤ ((sortTriplesDesc (groupVisits (fun v => v.referer)
              (AnalyticsAggregationJob.matchVisits urlId startOfDay endOfDay visits))).map
              ((fun x : ReferrerEntry => x.visits) ∘ fun e =>
                (⟨AnalyticsAggregationJob.extractDomain hostname e.1, e.2.1, e.2.2⟩ :
                  ReferrerEntry))).sum :=
            List.Sublist.sum_le_sum (List.take_sublist _ _) (fun b _ => Nat.zero_le b)
        _ = _ := (sum_map_sortTriplesDesc _ _).trans (sum_visits_groupVisits _ _)

/-- Claim C3, witness: the sum invariant instantiated on the concrete one-event
day, whose built document is `sampleRollupDoc`. -/
theorem C3_rollup_sum_invariant_witness :
    ((sampleRollupDoc.countries.map (·.visits)).sum = sampleRollupDoc.totalVisits ∧
     (sampleRollupDoc.devices.map (·.visits)).sum = sampleRollupDoc.totalVisits ∧
     (sampleRollupDoc.browsers.map (·.visits)).sum = sampleRollupDoc.totalVisits ∧
     (sampleRollupDoc.hourlyBreakdown.map (·.visits)).sum = sampleRollupDoc.totalVisits) ∧
    (sampleRollupDoc.referrers.map (·.visits)).sum ≤ sampleRollupDoc.totalVisits :=
  C3_rollup_sum_invariant (fun _ => none) none 0 86399999 [sampleVisit]
    sampleRollupDoc (by decide)

/-- Claim C4, counterexample: a visitor *without* a `visitorId` cookie hits URL
1 at 10:00 and 10:40 UTC on 2024-01-05 and again at 12:00 the same day.  The
12:00 hit is classified `isUniqueVisitor = true`, not `false` as the claim
states: with no cookie the 24-hour lookback matches on the session
fingerprint, which embeds the UTC hour bucket, so the 12:00 fingerprint
matches no stored event. -/
theorem C4_counterexample :
    AnalyticsService.isUniqueVisitor
      (AnalyticsService.generateSessionId "203.0.113.7" "TestUA" none 1704456000000)
      1 none 24 1704456000000
      [{ url := 1, visitedAt := 1704448800000,
         sessionId := AnalyticsService.generateSessionId "203.0.113.7" "TestUA" none
           1704448800000,
         isUniqueVisitor := true },
       { url := 1, visitedAt := 1704451200000,
         sessionId := AnalyticsService.generateSessionId "203.0.113.7" "TestUA" none
           1704451200000 }]
      = true := by decide

/-- Claim C4, amended: for hits at 10:00, 10:40 and 12:00 UTC on the same day
against the same URL — with a `visitorId` cookie the 10:40 and the 12:00 hits
are both classified non-unique (the 24-hour lookback matches on the cookie);
without a cookie the 10:40 hit is non-unique (same UTC-hour fingerprint) but
the 12:00 hit is classified unique again, because the fallback lookback
matches on the hour-bucketed session fingerprint, which has changed. -/
theorem C4_uniqueness_window (ip ua vid : String) (hvid : vid ≠ "") :
    (AnalyticsService.isUniqueVisitor
        (AnalyticsService.generateSessionId ip ua (some vid) 1704451200000)
        1 (some vid) 24 1704451200000
        [{ url := 1, visitedAt := 1704448800000, visitorId := some vid,
           sessionId := AnalyticsService.generateSessionId ip ua (some vid) 1704448800000,
           isUniqueVisitor := true }] = false ∧
     AnalyticsService.isUniqueVisitor
        (AnalyticsService.generateSessionId ip ua (some vid) 1704456000000)
        1 (some vid) 24 1704456000000
        [{ url := 1, visitedAt := 1704448800000, visitorId := some vid,
           sessionId := AnalyticsService.generateSessionId ip ua (some vid) 1704448800000,
           isUniqueVisitor := true },
         { url := 1, visitedAt := 1704451200000, visitorId := some vid,
           sessionId := AnalyticsService.generateSessionId ip ua (some vid) 1704451200000 }]
        = false) ∧
    (AnalyticsService.isUniqueVisitor
        (AnalyticsService.generateSessionId ip ua none 1704451200000)
        1 none 24 1704451200000
        [{ url := 1, visitedAt := 1704448800000,
           sessionId := AnalyticsService.generateSessionId ip ua none 1704448800000,
           isUniqueVisitor := true }] = false ∧
     AnalyticsService.isUniqueVisitor
        (AnalyticsService.generateSessionId ip ua none 1704456000000)
        1 none 24 1704456000000
        [{ url := 1, visitedAt := 1704448800000,
           sessionId := AnalyticsService.generateSessionId ip ua none 1704448800000,
           isUniqueVisitor := true },
         { url := 1, visitedAt := 1704451200000,
           sessionId := AnalyticsService.generateSessionId ip ua none 1704451200000 }]
        = true) := by
  refine ⟨⟨?_, ?_⟩, ?_, ?_⟩
  · simp [AnalyticsService.isUniqueVisitor, jsPresent, hvid, List.find?, MS_PER_HOUR]
  · simp [AnalyticsService.isUniqueVisitor, jsPresent, hvid, List.find?, MS_PER_HOUR]
  · have hEq : AnalyticsService.generateSessionId ip ua none 1704451200000 =
        AnalyticsService.generateSessionId ip ua none 1704448800000 := by
      show (((ip ++ "-") ++ jsOr ua "unknown") ++ "-") ++
          toString ((1704451200000 : Int).fdiv MS_PER_HOUR) =
        (((ip ++ "-") ++ jsOr ua "unknown") ++ "-") ++
          toString ((1704448800000 : Int).fdiv MS_PER_HOUR)
      exact congrArg ((((ip ++ "-") ++ jsOr ua "unknown") ++ "-") ++ ·) (by decide)
    simp [AnalyticsService.isUniqueVisitor, jsPresent, List.find?, MS_PER_HOUR, hEq]
  · have hne1 : AnalyticsService.generateSessionId ip ua none 1704448800000 ≠
        AnalyticsService.generateSessionId ip ua none 1704456000000 := by
      show (((ip ++ "-") ++ jsOr ua "unknown") ++ "-") ++
          toString ((1704448800000 : Int).fdiv MS_PER_HOUR) ≠
        (((ip ++ "-") ++ jsOr ua "unknown") ++ "-") ++
          toString ((1704456000000 : Int).fdiv MS_PER_HOUR)
      exact string_append_right_ne _ (by decide)
    have hne2 : AnalyticsService.generateSessionId ip ua none 1704451200000 ≠
        AnalyticsService.generateSessionId ip ua none 1704456000000 := by
      show (((ip ++ "-") ++ jsOr ua "unknown") ++ "-") ++
          toString ((1704451200000 : Int).fdiv MS_PER_HOUR) ≠
        (((ip ++ "-") ++ jsOr ua "unknown") ++ "-") ++
          toString ((1704456000000 : Int).fdiv MS_PER_HOUR)
      exact string_append_right_ne _ (by decide)
    have hb1 : (AnalyticsService.generateSessionId ip ua none 1704448800000 ==
        AnalyticsService.generateSessionId ip ua none 1704456000000) = false :=
      beq_eq_false_iff_ne.mpr hne1
    have hb2 : (AnalyticsService.generateSessionId ip ua none 1704451200000 ==
        AnalyticsService.generateSessionId ip ua none 1704456000000) = false :=
      beq_eq_false_iff_ne.mpr hne2
    simp [AnalyticsService.isUniqueVisitor, jsPresent, List.find?, MS_PER_HOUR, hb1, hb2]

/-- Claim C4, witness: the amended uniqueness-window facts at a concrete IP,
user agent and cookie value. -/
theorem C4_uniqueness_window_witness :
    (AnalyticsService.isUniqueVisitor
        (AnalyticsService.generateSessionId "198.51.100.7" "Agent" (some "cookie1")
          1704451200000)
        1 (some "cookie1") 24 1704451200000
        [{ url := 1, visitedAt := 1704448800000, visitorId := some "cookie1",
           sessionId := AnalyticsService.generateSessionId "198.51.100.7" "Agent"
             (some "cookie1") 1704448800000,
           isUniqueVisitor := true }] = false ∧
     AnalyticsService.isUniqueVisitor
        (AnalyticsService.generateSessionId "198.51.100.7" "Agent" (some "cookie1")
          1704456000000)
        1 (some "cookie1") 24 1704456000000
        [{ url := 1, visitedAt := 1704448800000, visitorId := some "cookie1",
           sessionId := AnalyticsService.generateSessionId "198.51.100.7" "Agent"
             (some "cookie1") 1704448800000,
           isUniqueVisitor := true },
         { url := 1, visitedAt := 1704451200000, visitorId := some "cookie1",
           sessionId := AnalyticsService.generateSessionId "198.51.100.7" "Agent"
             (some "cookie1") 1704451200000 }] = false) ∧
    (AnalyticsService.isUniqueVisitor
        (AnalyticsService.generateSessionId "198.51.100.7" "Agent" none 1704451200000)
        1 none 24 1704451200000
        [{ url := 1, visitedAt := 1704448800000,
           sessionId := AnalyticsService.generateSessionId "198.51.100.7" "Agent" none
             1704448800000,
           isUniqueVisitor := true }] = false ∧
     AnalyticsService.isUniqueVisitor
        (AnalyticsService.generateSessionId "198.51.100.7" "Agent" none 1704456000000)
        1 none 24 1704456000000
        [{ url := 1, visitedAt := 1704448800000,
           sessionId := AnalyticsService.generateSessionId "198.51.100.7" "Agent" none
             1704448800000,
           isUniqueVisitor := true },
         { url := 1, visitedAt := 1704451200000,
           sessionId := AnalyticsService.generateSessionId "198.51.100.7" "Agent" none
             1704451200000 }] = true) :=
  C4_uniqueness_window "198.51.100.7" "Agent" "cookie1" (by decide)

end Linker

namespace Linker

/-- Claim C5, counterexample: on a server with a fixed +1 h timezone offset,
`getDateRange {period: 'yesterday'}` evaluated at 2024-03-10T15:00Z does *not*
resolve to [2024-03-09T00:00Z, 2024-03-10T00:00Z): the resolution uses the JS
local-time `Date` constructor, so it is not independent of the server's local
timezone. -/
theorem C5_counterexample :
    AnalyticsReportService.getDateRange 1710082800000 3600000
        { period := some Period.yesterday } ≠
      ((1709942400000 : Int), (1710028800000 : Int)) := by decide

/-- Claim C5, amended: period resolution uses the server's *local* calendar
day.  On a UTC server (offset 0) `'yesterday'` maps to
[previous UTC midnight, current UTC midnight), and at 2024-03-10T15:00Z it
resolves to [2024-03-09T00:00Z, 2024-03-10T00:00Z) as the claim's instance
states; for a non-zero offset the bounds shift with the offset
(`C5_counterexample`). -/
theorem C5_yesterday_resolution :
    (∀ nowMs : Int, AnalyticsReportService.getDateRange nowMs 0
        { period := some Period.yesterday } =
      (dayStartUTC nowMs - MS_PER_DAY, dayStartUTC nowMs)) ∧
    AnalyticsReportService.getDateRange 1710082800000 0
        { period := some Period.yesterday } =
      ((1709942400000 : Int), (1710028800000 : Int)) := by
  constructor
  · intro nowMs
    simp [AnalyticsReportService.getDateRange, localDayStart, dayStartUTC]
  · decide

/-- Claim C6: for every event store, rollup store and run instant, the
Aggregator run never creates or overwrites a rollup document whose `date`
equals the UTC midnight of the run instant ("today"): the documents dated
today are exactly the same before and after the run, no matter how many events
exist for that day.  (Every walked day lies strictly before today, and each
upsert is keyed by the walked day.) -/
theorem C6_boundary_exclusion (hostname : String → Option String) (nowMs : Int)
    (visits : List Visit) (store : List AnalyticsDoc) :
    ((AnalyticsAggregationJob.aggregatePendingDays hostname nowMs visits store).1).filter
        (fun d => d.date == dayStartUTC nowMs) =
      store.filter (fun d => d.date == dayStartUTC nowMs) := by
  cases hE : AnalyticsAggregationJob.earliestVisitAt visits with
  | none => rw [AnalyticsAggregationJob.aggregatePendingDays_eq_none hostname nowMs _ hE]
  | some t0 =>
    have hf : dayStartUTC (dayStartUTC t0) = dayStartUTC t0 :=
      AnalyticsAggregationJob.dayStartUTC_idem t0
    rw [AnalyticsAggregationJob.aggregatePendingDays_eq_fold hostname nowMs store hE]
    apply AnalyticsAggregationJob.pendingFold_filter hostname visits hf
    intro i hi x hx
    have hlt : AnalyticsAggregationJob.dayAt (dayStartUTC t0) i < dayStartUTC nowMs :=
      AnalyticsAggregationJob.dayAt_lt hf (AnalyticsAggregationJob.dayStartUTC_idem nowMs) hi
    have hne : x.date ≠ dayStartUTC nowMs := by
      rw [hx]
      exact ne_of_lt hlt
    exact beq_eq_false_iff_ne.mpr hne

/-- Claim C7, counterexample: `run()` resolves with no value
(`Promise<void>`), so its return value is the same for an empty event store
and for a store with one event — yet the days-aggregated counts of the two
runs (computed and returned by the internal `aggregatePendingDays`, and only
logged by `run`) differ.  `run()` therefore does not return the count of days
it aggregated. -/
theorem C7_counterexample :
    (AnalyticsAggregationJob.run (fun _ => none) 86400000 [] []).2 =
      (AnalyticsAggregationJob.run (fun _ => none) 86400000 [sampleVisit] []).2 ∧
    (AnalyticsAggregationJob.aggregatePendingDays (fun _ => none) 86400000 [] []).2 ≠
      (AnalyticsAggregationJob.aggregatePendingDays (fun _ => none) 86400000
        [sampleVisit] []).2 := by
  constructor
  · rfl
  · decide

/-- Claim C7, amended: `run()` returns no value; the count of days aggregated
is computed and returned by its internal helper `aggregatePendingDays`, whose
store component `run` keeps.  When the Event Store contains no Raw Event at
all, `aggregatePendingDays` returns 0 and writes no Rollup Summary (the store
is returned unchanged), and `run` likewise leaves the store unchanged. -/
theorem C7_run_return_contract (hostname : String → Option String) (nowMs : Int)
    (visits : List Visit) (store : List AnalyticsDoc) :
    AnalyticsAggregationJob.run hostname nowMs [] store = (store, ()) ∧
    AnalyticsAggregationJob.aggregatePendingDays hostname nowMs [] store = (store, 0) ∧
    (AnalyticsAggregationJob.run hostname nowMs visits store).1 =
      (AnalyticsAggregationJob.aggregatePendingDays hostname nowMs visits store).1 ∧
    (AnalyticsAggregationJob.run hostname nowMs visits store).2 = () :=
  ⟨rfl, rfl, rfl, rfl⟩

/-- Claim C8: the mobile-device-brand breakdown is computed from Raw Events
over the entire requested range and never reads Rollup Summaries.
Conjuncts: (1) `getMobileDeviceBreakdown` is unchanged under any change of
the rollup store; (2) it depends only on the raw events inside the resolved
range `[startDate, endDate]` (two event stores agreeing there give equal
results — no today-boundary split); (3) and (4) the same two facts for the
`mobileDevices` portion of `getUrlSpecificAnalytics`. -/
theorem C8_mobile_brand_full_range :
    (∀ (nowMs tz : Int) (urls : List Url) (visits : List Visit)
        (a1 a2 : List AnalyticsDoc) (userId : String) (dr : DateRange),
      AnalyticsReportService.getMobileDeviceBreakdown nowMs tz ⟨urls, visits, a1⟩
          userId dr =
        AnalyticsReportService.getMobileDeviceBreakdown nowMs tz ⟨urls, visits, a2⟩
          userId dr) ∧
    (∀ (nowMs tz : Int) (urls : List Url) (visits visits' : List Visit)
        (analytics : List AnalyticsDoc) (userId : String) (dr : DateRange),
      (visits.filter fun v =>
          decide ((AnalyticsReportService.getDateRange nowMs tz dr).1 ≤ v.visitedAt) &&
          decide (v.visitedAt ≤ (AnalyticsReportService.getDateRange nowMs tz dr).2)) =
        (visits'.filter fun v =>
          decide ((AnalyticsReportService.getDateRange nowMs tz dr).1 ≤ v.visitedAt) &&
          decide (v.visitedAt ≤ (AnalyticsReportService.getDateRange nowMs tz dr).2)) →
      AnalyticsReportService.getMobileDeviceBreakdown nowMs tz ⟨urls, visits, analytics⟩
          userId dr =
        AnalyticsReportService.getMobileDeviceBreakdown nowMs tz ⟨urls, visits', analytics⟩
          userId dr) ∧
    (∀ (nowMs tz : Int) (urls : List Url) (visits : List Visit)
        (a1 a2 : List AnalyticsDoc) (urlId : Nat) (userId : String) (dr : DateRange),
      Except.map (fun r => r.mobileDevices)
          (AnalyticsReportService.getUrlSpecificAnalytics nowMs tz ⟨urls, visits, a1⟩
            urlId userId dr) =
        Except.map (fun r => r.mobileDevices)
          (AnalyticsReportService.getUrlSpecificAnalytics nowMs tz ⟨urls, visits, a2⟩
            urlId userId dr)) ∧
    (∀ (nowMs tz : Int) (urls : List Url) (visits visits' : List Visit)
        (analytics : List AnalyticsDoc) (urlId : Nat) (userId : String) (dr : DateRange),
      (visits.filter fun v =>
          decide ((AnalyticsReportService.getDateRange nowMs tz dr).1 ≤ v.visitedAt) &&
          decide (v.visitedAt ≤ (AnalyticsReportService.getDateRange nowMs tz dr).2)) =
        (visits'.filter fun v =>
          decide ((AnalyticsReportService.getDateRange nowMs tz dr).1 ≤ v.visitedAt) &&
          decide (v.visitedAt ≤ (AnalyticsReportService.getDateRange nowMs tz dr).2)) →
      Except.map (fun r => r.mobileDevices)
          (AnalyticsReportService.getUrlSpecificAnalytics nowMs tz ⟨urls, visits, analytics⟩
            urlId userId dr) =
        Except.map (fun r => r.mobileDevices)
          (AnalyticsReportService.getUrlSpecificAnalytics nowMs tz ⟨urls, visits', analytics⟩
            urlId userId dr)) := by
  refine ⟨?_, ?_, ?_, ?_⟩
  · intro nowMs tz urls visits a1 a2 userId dr
    rfl
  · intro nowMs tz urls visits visits' analytics userId dr h
    unfold AnalyticsReportService.getMobileDeviceBreakdown
    dsimp only
    rw [filter_time_split, filter_time_split, h]
  · intro nowMs tz urls visits a1 a2 urlId userId dr
    unfold AnalyticsReportService.getUrlSpecificAnalytics
    cases hfind : urls.find? (fun u => u.id == urlId && u.createdBy == userId) with
    | none => rfl
    | some u => rfl
  · intro nowMs tz urls visits visits' analytics urlId userId dr h
    have hmm : AnalyticsReportService.urlSpecMobileMap visits urlId
        (AnalyticsReportService.getDateRange nowMs tz dr).1
        (AnalyticsReportService.getDateRange nowMs tz dr).2 =
      AnalyticsReportService.urlSpecMobileMap visits' urlId
        (AnalyticsReportService.getDateRange nowMs tz dr).1
        (AnalyticsReportService.getDateRange nowMs tz dr).2 := by
      unfold AnalyticsReportService.urlSpecMobileMap
        AnalyticsReportService.urlSpecMobileVisits
      rw [urlspec_filter_time_split, urlspec_filter_time_split, h]
    unfold AnalyticsReportService.getUrlSpecificAnalytics
    cases hfind : urls.find? (fun u => u.id == urlId && u.createdBy == userId) with
    | none => rfl
    | some u =>
      simp only [map_mobileDevices_ok, urlSpecBody_mobileDevices, hmm]

/-- Claim C8, witness: the four conjuncts at concrete inputs — an event dated
outside the default 30-day range (so the in-range filters agree with the empty
store) and two rollup stores differing by one document. -/
theorem C8_mobile_brand_full_range_witness :
    (AnalyticsReportService.getMobileDeviceBreakdown 0 0 ⟨[], [], []⟩ "u" {} =
      AnalyticsReportService.getMobileDeviceBreakdown 0 0 ⟨[], [], [sampleRollupDoc]⟩
        "u" {}) ∧
    (AnalyticsReportService.getMobileDeviceBreakdown 0 0 ⟨[], [], []⟩ "u" {} =
      AnalyticsReportService.getMobileDeviceBreakdown 0 0
        ⟨[], [{ url := 1, visitedAt := 5 }], []⟩ "u" {}) ∧
    (Except.map (fun r => r.mobileDevices)
        (AnalyticsReportService.getUrlSpecificAnalytics 0 0 ⟨[], [], []⟩ 1 "u" {}) =
      Except.map (fun r => r.mobileDevices)
        (AnalyticsReportService.getUrlSpecificAnalytics 0 0 ⟨[], [], [sampleRollupDoc]⟩
          1 "u" {})) ∧
    (Except.map (fun r => r.mobileDevices)
        (AnalyticsReportService.getUrlSpecificAnalytics 0 0 ⟨[], [], []⟩ 1 "u" {}) =
      Except.map (fun r => r.mobileDevices)
        (AnalyticsReportService.getUrlSpecificAnalytics 0 0
          ⟨[], [{ url := 1, visitedAt := 5 }], []⟩ 1 "u" {})) :=
  ⟨C8_mobile_brand_full_range.1 0 0 [] [] [] [sampleRollupDoc] "u" {},
   C8_mobile_brand_full_range.2.1 0 0 [] [] [{ url := 1, visitedAt := 5 }] [] "u" {}
     (by decide),
   C8_mobile_brand_full_range.2.2.1 0 0 [] [] [] [sampleRollupDoc] 1 "u" {},
   C8_mobile_brand_full_range.2.2.2 0 0 [] [] [{ url := 1, visitedAt := 5 }] [] 1 "u" {}
     (by decide)⟩

/-- Claim C9: when no URL with the requested id created by the requesting user
exists, `getUrlSpecificAnalytics` fails with the not-found/denied error (the
ownership check throws `'URL not found or access denied'`, wrapped by the
surrounding catch) — for every state of the event and rollup stores, so no
analytics data is read or returned; the error is this fixed ownership
condition, not a storage error. -/
theorem C9_ownership_not_found (nowMs tz : Int) (db : DB) (urlId : Nat)
    (userId : String) (dr : DateRange)
    (h : db.urls.find? (fun u => u.id == urlId && u.createdBy == userId) = none) :
    AnalyticsReportService.getUrlSpecificAnalytics nowMs tz db urlId userId dr =
      Except.error "Failed to get URL analytics: URL not found or access denied" := by
  unfold AnalyticsReportService.getUrlSpecificAnalytics
  rw [h]

/-- Claim C9, witness: the ownership error on a database whose URL table does
not contain URL 1 for user "alice". -/
theorem C9_ownership_not_found_witness :
    AnalyticsReportService.getUrlSpecificAnalytics 0 0
        ⟨[{ id := 2, createdBy := "bob" }], [sampleVisit], [sampleRollupDoc]⟩ 1 "alice" {} =
      Except.error "Failed to get URL analytics: URL not found or access denied" :=
  C9_ownership_not_found 0 0
    ⟨[{ id := 2, createdBy := "bob" }], [sampleVisit], [sampleRollupDoc]⟩ 1 "alice" {}
    (by decide)

end Linker

namespace Linker

/-- Claim C10: (1) a rollup document the Aggregator builds always has
`totalVisits ≥ 1` — it never upserts a summary for a (scope, day) with zero
matching events; (2) consequently a run preserves the invariant that every
stored summary has `totalVisits ≥ 1`; (3) a past in-range day with no events
and no pre-existing global summary still has no global summary after the run,
so the following run (over the unchanged store) counts at least that day again
in its days-aggregated total. -/
theorem C10_no_empty_rollup_writes :
    (∀ (hostname : String → Option String) (urlId : Option Nat)
        (startOfDay endOfDay : Int) (visits : List Visit) (doc : AnalyticsDoc),
      AnalyticsAggregationJob.buildAnalyticsDoc hostname urlId startOfDay endOfDay
          visits = some doc →
        1 ≤ doc.totalVisits) ∧
    (∀ (hostname : String → Option String) (nowMs : Int) (visits : List Visit)
        (store : List AnalyticsDoc),
      (∀ d ∈ store, 1 ≤ d.totalVisits) →
      ∀ d ∈ (AnalyticsAggregationJob.aggregatePendingDays hostname nowMs visits store).1,
        1 ≤ d.totalVisits) ∧
    (∀ (hostname : String → Option String) (nowMs : Int) (visits : List Visit)
        (store : List AnalyticsDoc) (t0 : Int) (j : Nat),
      AnalyticsAggregationJob.earliestVisitAt visits = some t0 →
      j < ((dayStartUTC nowMs - dayStartUTC t0).fdiv MS_PER_DAY).toNat →
      AnalyticsAggregationJob.dayEmpty visits
        (AnalyticsAggregationJob.dayAt (dayStartUTC t0) j) = true →
      AnalyticsAggregationJob.hasGlobalDaily store
        (AnalyticsAggregationJob.dayAt (dayStartUTC t0) j) = false →
      AnalyticsAggregationJob.hasGlobalDaily
          (AnalyticsAggregationJob.aggregatePendingDays hostname nowMs visits store).1
          (AnalyticsAggregationJob.dayAt (dayStartUTC t0) j) = false ∧
        1 ≤ (AnalyticsAggregationJob.aggregatePendingDays hostname nowMs visits
          ((AnalyticsAggregationJob.aggregatePendingDays hostname nowMs visits store).1)).2) := by
  refine ⟨?_, ?_, ?_⟩
  · intro hostname urlId s e visits doc h
    exact (AnalyticsAggregationJob.build_some_fields h).2.2.2
  · intro hostname nowMs visits store hstore d hd
    cases hE : AnalyticsAggregationJob.earliestVisitAt visits with
    | none =>
      rw [AnalyticsAggregationJob.aggregatePendingDays_eq_none hostname nowMs _ hE] at hd
      exact hstore d hd
    | some t0 =>
      rw [AnalyticsAggregationJob.aggregatePendingDays_eq_fold hostname nowMs store hE] at hd
      rcases AnalyticsAggregationJob.pendingFold_mem hostname visits (dayStartUTC t0) _ 0 hd
        with h | h
      · exact hstore d h
      · exact h
  · intro hostname nowMs visits store t0 j hE hj hEmpty hStore
    have hf : dayStartUTC (dayStartUTC t0) = dayStartUTC t0 :=
      AnalyticsAggregationJob.dayStartUTC_idem t0
    set f := dayStartUTC t0 with hfdef
    set n := ((dayStartUTC nowMs - f).fdiv MS_PER_DAY).toNat with hndef
    set r1 := (List.range n).foldl
      (AnalyticsAggregationJob.pendingStep hostname visits f) (store, 0) with hr1
    have he1 : AnalyticsAggregationJob.aggregatePendingDays hostname nowMs visits store = r1 :=
      AnalyticsAggregationJob.aggregatePendingDays_eq_fold hostname nowMs store hE
    have hval : AnalyticsAggregationJob.hasGlobalDaily r1.1
        (AnalyticsAggregationJob.dayAt f j) = false := by
      rw [hr1, AnalyticsAggregationJob.pendingFold_hasGlobal hostname visits hf n store 0 j]
      simp [hj, hStore, hEmpty]
    refine ⟨by rw [he1]; exact hval, ?_⟩
    have hchar : ∀ i, i < n →
        AnalyticsAggregationJob.hasGlobalDaily r1.1 (AnalyticsAggregationJob.dayAt f i) =
        (AnalyticsAggregationJob.hasGlobalDaily store (AnalyticsAggregationJob.dayAt f i) ||
          !AnalyticsAggregationJob.dayEmpty visits (AnalyticsAggregationJob.dayAt f i)) := by
      intro i hi
      rw [hr1, AnalyticsAggregationJob.pendingFold_hasGlobal hostname visits hf n store 0 i]
      simp [hi]
    have h2 := AnalyticsAggregationJob.pendingFold_second hostname visits hf n store r1.1 hchar
    rw [he1, AnalyticsAggregationJob.aggregatePendingDays_eq_fold hostname nowMs r1.1 hE,
      ← hfdef, ← hndef, h2]
    have hjmem : j ∈ (List.range n).filter fun i =>
        !AnalyticsAggregationJob.hasGlobalDaily store (AnalyticsAggregationJob.dayAt f i) &&
          AnalyticsAggregationJob.dayEmpty visits (AnalyticsAggregationJob.dayAt f i) := by
      rw [List.mem_filter]
      exact ⟨List.mem_range.mpr hj, by simp [hStore, hEmpty]⟩
    exact List.length_pos.mpr (List.ne_nil_of_mem hjmem)

/-- Claim C10, witness: (1) the one-event day builds `sampleRollupDoc` with
one visit; (2) after running over `[sampleVisit]` from the empty rollup store,
the written global document still has `totalVisits ≥ 1`; (3) with events on
days 0 and 2 only and "today" = day 3, the empty day 1 has no global summary
after the run and the repeat run counts at least one day. -/
theorem C10_no_empty_rollup_writes_witness :
    (1 ≤ sampleRollupDoc.totalVisits) ∧
    (1 ≤ sampleRollupDoc.totalVisits) ∧
    (AnalyticsAggregationJob.hasGlobalDaily
        (AnalyticsAggregationJob.aggregatePendingDays (fun _ => none) 259200000
          gapVisits []).1
        (AnalyticsAggregationJob.dayAt (dayStartUTC 0) 1) = false ∧
      1 ≤ (AnalyticsAggregationJob.aggregatePendingDays (fun _ => none) 259200000 gapVisits
        ((AnalyticsAggregationJob.aggregatePendingDays (fun _ => none) 259200000
          gapVisits []).1)).2) :=
  ⟨C10_no_empty_rollup_writes.1 (fun _ => none) none 0 86399999 [sampleVisit]
      sampleRollupDoc (by decide),
   C10_no_empty_rollup_writes.2.1 (fun _ => none) 86400000 [sampleVisit] []
      (by simp) sampleRollupDoc (by decide),
   C10_no_empty_rollup_writes.2.2 (fun _ => none) 259200000 gapVisits [] 0 1
      (by decide) (by decide) (by decide) (by decide)⟩

end Linker
